import Mathlib

/-!
Verification of the state-synchronization core of the sticky-notes client
(`script.js`).  The JavaScript is shallowly embedded: the global mutable
variables (`notes`, `selectedNoteId`, `draggedNote`, `saveDebounceTimer`,
`isSaving`, `lastSaveTime`) become fields of an explicit `AppState` record,
timers become explicit deadlines in virtual time (`Nat` milliseconds), and the
network is represented by an explicit outcome parameter plus an observation log
of issued write bodies.  Every definition is translated from the source;
`writes` (the log of POST bodies issued so far) and `inFlight` (the number of
POST requests currently awaiting their response) are observation-only fields
that record the effects the source performs with `fetch`.
-/

namespace NotesApp

/-- `POLL_INTERVAL` constant, script.js line 5. -/
def POLL_INTERVAL : Nat := 3000

/-- `DEBOUNCE_DELAY` constant, script.js line 6. -/
def DEBOUNCE_DELAY : Nat := 500

/-- `MIN_SAVE_INTERVAL` constant, script.js line 21. -/
def MIN_SAVE_INTERVAL : Nat := 2000

/-- A note record (`{ id, content, x, y, width, height }`, script.js
lines 181-188).  Coordinates and dimensions are modelled as integers; none of
the verified claims depends on fractional coordinate values. -/
structure Note where
  id : String
  content : String
  x : Int
  y : Int
  width : Int
  height : Int
deriving DecidableEq, Repr

/-- The process-wide mutable state of script.js (lines 8-21), plus the two
observation fields `writes` and `inFlight` described in the file header.
`saveDebounceTimer` holds the absolute expiry deadline of the pending debounce
timeout (`none` when no timeout is pending); `draggedNote` holds the id of the
note being dragged (`none` when no drag is active). -/
structure AppState where
  notes : List Note
  selectedNoteId : Option String
  draggedNote : Option String
  saveDebounceTimer : Option Nat
  isSaving : Bool
  lastSaveTime : Nat
  writes : List (List Note)
  inFlight : Nat
deriving DecidableEq, Repr

/-- The initial values of the globals (script.js lines 9-18). -/
def initialState : AppState :=
  { notes := []
    selectedNoteId := none
    draggedNote := none
    saveDebounceTimer := none
    isSaving := false
    lastSaveTime := 0
    writes := []
    inFlight := 0 }

/-- `notes.find(n => n.id === id)` followed by an in-place mutation of the
found note: replaces the first list entry satisfying `p` by its image under
`f`; the returned flag reports whether a note was found (and hence whether the
mutator body, including its `saveNotesToAPI()` call, ran). -/
def updateFirst (p : Note → Prop) [DecidablePred p] (f : Note → Note) :
    List Note → List Note × Bool
  | [] => ([], false)
  | n :: ns =>
    if p n then (f n :: ns, true)
    else (n :: (updateFirst p f ns).1, (updateFirst p f ns).2)

/-- `updateNoteContent` (script.js lines 267-273), restricted to its effect on
the `notes` array; the flag is `true` exactly when `saveNotesToAPI()` was
called. -/
def updateNoteContent (id content : String) (ns : List Note) : List Note × Bool :=
  updateFirst (fun n => n.id = id) (fun n => { n with content := content }) ns

/-- `updateNotePosition` (script.js lines 275-282). -/
def updateNotePosition (id : String) (nx ny : Int) (ns : List Note) : List Note × Bool :=
  updateFirst (fun n => n.id = id) (fun n => { n with x := nx, y := ny }) ns

/-- `updateNoteSize` (script.js lines 284-291). -/
def updateNoteSize (id : String) (w h : Int) (ns : List Note) : List Note × Bool :=
  updateFirst (fun n => n.id = id) (fun n => { n with width := w, height := h }) ns

/-- The debounce-scheduling part of `saveNotesToAPI` (script.js lines 100-106):
`clearTimeout` of the previous countdown followed by `setTimeout(..,
DEBOUNCE_DELAY)` is the replacement of the pending deadline by
`now + DEBOUNCE_DELAY`. -/
def scheduleWrite (now : Nat) (s : AppState) : AppState :=
  { s with saveDebounceTimer := some (now + DEBOUNCE_DELAY) }

/-- The body of the debounce timeout (script.js lines 106-139): when it fires,
the pending countdown is consumed; if `isSaving` the write is dropped,
otherwise `isSaving` is set and a POST carrying the current `notes` is
issued. -/
def debounceExpire (s : AppState) : AppState :=
  if s.isSaving then { s with saveDebounceTimer := none }
  else
    { s with
      saveDebounceTimer := none
      isSaving := true
      inFlight := s.inFlight + 1
      writes := s.writes ++ [s.notes] }

/-- Settlement of an in-flight POST (script.js lines 125-138 and 211-221,
244-263): `isSaving` is cleared in the `finally` block, and `lastSaveTime` is
set to the current time exactly when the response reports
`status === "success"`. -/
def writeComplete (ok : Bool) (now : Nat) (s : AppState) : AppState :=
  { s with
    isSaving := false
    inFlight := s.inFlight - 1
    lastSaveTime := if ok then now else s.lastSaveTime }

/-- Fires the pending debounce timeout when its deadline has been reached by
time `t`; otherwise the state is untouched.  (A timeout cancelled by
`clearTimeout` is `none` here and can never fire.) -/
def fireTimerIfDue (t : Nat) (s : AppState) : AppState :=
  match s.saveDebounceTimer with
  | none => s
  | some d => if d ≤ t then debounceExpire s else s

/-- `updateNoteContent` at the state level (script.js lines 267-273): mutate
the found note, then `saveNotesToAPI()` (which (re)schedules the debounce
countdown); a no-op when no note matches. -/
def updateNoteContentS (id content : String) (now : Nat) (s : AppState) : AppState :=
  if (updateNoteContent id content s.notes).2 then
    scheduleWrite now { s with notes := (updateNoteContent id content s.notes).1 }
  else s

/-- A base-36 digit rendered as the character `toString(36)` uses
(`0`-`9` then `a`-`z`). -/
def base36Char (d : Nat) : Char :=
  Char.ofNat (if d < 10 then 48 + d else 87 + d)

/-- A base-36 digit string. -/
def base36String (ds : List Nat) : String :=
  String.mk (ds.map base36Char)

/-- `generateId` (script.js lines 176-178):
`Date.now().toString(36) + Math.random().toString(36).substr(2)`.  The current
time `now` is rendered most-significant digit first (hence the `reverse` of
`Nat.digits`, which is little-endian); `rand` is the list of base-36 digits of
the random fraction after the leading `0.` has been dropped by
`substr(2)`. -/
def generateId (now : Nat) (rand : List Nat) : String :=
  base36String ((Nat.digits 36 now).reverse ++ rand)

/-- The note literal built by `createNewNote` (script.js lines 181-188); the
random position is an explicit parameter. -/
def mkNewNote (id : String) (nx ny : Int) : Note :=
  { id := id, content := "", x := nx, y := ny, width := 260, height := 200 }

/-- `createNewNote` (script.js lines 180-223): append the new note, cancel any
pending debounce countdown (`clearTimeout`, lines 196-198), set `isSaving` and
issue the POST immediately (lines 200-209).  Settlement of the POST is the
separate `writeComplete` event. -/
def createNewNote (now : Nat) (rand : List Nat) (nx ny : Int) (s : AppState) : AppState :=
  let nn := mkNewNote (generateId now rand) nx ny
  { s with
    notes := s.notes ++ [nn]
    saveDebounceTimer := none
    isSaving := true
    inFlight := s.inFlight + 1
    writes := s.writes ++ [s.notes ++ [nn]] }

/-- `deleteSelectedNote` (script.js lines 225-265): a no-op when nothing is
selected; otherwise filter the note out, clear the selection, cancel any
pending debounce countdown and issue the POST immediately. -/
def deleteSelectedNote (s : AppState) : AppState :=
  match s.selectedNoteId with
  | none => s
  | some sid =>
    let ns := s.notes.filter (fun n => n.id != sid)
    { s with
      notes := ns
      selectedNoteId := none
      saveDebounceTimer := none
      isSaving := true
      inFlight := s.inFlight + 1
      writes := s.writes ++ [ns] }

/-- The shape of the `notes` field of a decoded GET response body, as
discriminated by `data.notes && Array.isArray(data.notes)` (script.js
line 79): absent (or falsy), present but not an array, or an array. -/
inductive NotesField where
  | missing : NotesField
  | notSequence : NotesField
  | array : List Note → NotesField
deriving DecidableEq, Repr

/-- A decoded GET response body. -/
structure ApiData where
  notes : NotesField
deriving DecidableEq, Repr

/-- The outcome of `fetch(API_URL)` + `response.json()`: either a thrown
transport/decode error (caught at line 90) or a decoded body. -/
inductive FetchOutcome where
  | failure : FetchOutcome
  | success : ApiData → FetchOutcome
deriving DecidableEq, Repr

/-- The observable effects of one `loadNotesFromAPI` call: whether the GET was
issued at all, whether the loading indicator was shown, and whether
`renderNotes()` was called (Board State replaced). -/
structure LoadResult where
  fetchIssued : Bool
  indicatorShown : Bool
  rendered : Bool
deriving DecidableEq, Repr

/-- The reconciliation step of `loadNotesFromAPI` (script.js lines 79-89):
compare the canonical serializations (`JSON.stringify`) of the current notes
and the incoming snapshot; on a difference replace wholesale and redraw, else
do nothing.  The flag reports whether a replace/redraw happened. -/
def reconcile (localNotes snapshot : List Note) : List Note × Bool :=
  if localNotes = snapshot then (localNotes, false) else (snapshot, true)

/-- `loadNotesFromAPI` (script.js lines 55-97).  The guards of lines 56-67 run
first, in source order; only when they pass is the GET issued (its outcome is
the `outcome` parameter) and the body inspected. -/
def loadNotesFromAPI (showIndicator : Bool) (now : Nat) (outcome : FetchOutcome)
    (s : AppState) : AppState × LoadResult :=
  if now - s.lastSaveTime < MIN_SAVE_INTERVAL then
    (s, { fetchIssued := false, indicatorShown := false, rendered := false })
  else if s.isSaving || s.draggedNote.isSome then
    (s, { fetchIssued := false, indicatorShown := false, rendered := false })
  else
    match outcome with
    | FetchOutcome.failure =>
      (s, { fetchIssued := true, indicatorShown := showIndicator, rendered := false })
    | FetchOutcome.success data =>
      match data.notes with
      | NotesField.array snapshot =>
        ({ s with notes := (reconcile s.notes snapshot).1 },
         { fetchIssued := true, indicatorShown := showIndicator,
           rendered := (reconcile s.notes snapshot).2 })
      | _ =>
        (s, { fetchIssued := true, indicatorShown := showIndicator, rendered := false })

/-- One tick of the poll interval (script.js lines 144-148):
`loadNotesFromAPI(false)`. -/
def pollTick (now : Nat) (outcome : FetchOutcome) (s : AppState) : AppState × LoadResult :=
  loadNotesFromAPI false now outcome s

/-- The initial load issued by the `DOMContentLoaded` handler (script.js
line 34): `loadNotesFromAPI(true)` against the start-up state of the
globals. -/
def initialLoad (now : Nat) (outcome : FetchOutcome) : AppState × LoadResult :=
  loadNotesFromAPI true now outcome initialState

/-- The events of the debounced-writer subsystem: a content edit (which
(re)schedules the countdown), the expiry of the countdown, and the settlement
of an in-flight POST. -/
inductive DebounceEvent where
  | edit : String → String → Nat → DebounceEvent
  | expire : DebounceEvent
  | complete : Bool → Nat → DebounceEvent

/-- Step of the debounced-writer subsystem. -/
def debounceStep (s : AppState) : DebounceEvent → AppState
  | DebounceEvent.edit id content t => updateNoteContentS id content t s
  | DebounceEvent.expire => debounceExpire s
  | DebounceEvent.complete ok t => writeComplete ok t s

/-- A run of the debounced-writer subsystem over a list of events. -/
def runDebounce (evs : List DebounceEvent) (s : AppState) : AppState :=
  evs.foldl debounceStep s

/-- One content-edit call of a burst, at its timestamp: any countdown whose
deadline has passed fires first, then `updateNoteContent` runs. -/
def contentEditStep (id : String) (e : Nat × String) (s : AppState) : AppState :=
  updateNoteContentS id e.2 e.1 (fireTimerIfDue e.1 s)

/-- A burst of content-edit calls, each a `(timestamp, newContent)` pair in
chronological order. -/
def runEdits (id : String) : List (Nat × String) → AppState → AppState
  | [], s => s
  | e :: rest, s => runEdits id rest (contentEditStep id e s)

/-- Checks that every edit of the list happens strictly after time `prev`
and strictly less than `DEBOUNCE_DELAY` after the previous edit. -/
def gapsFromB : Nat → List (Nat × String) → Bool
  | _, [] => true
  | prev, e :: rest =>
    decide (prev < e.1) && decide (e.1 < prev + DEBOUNCE_DELAY) && gapsFromB e.1 rest

/-- Timestamp of the last edit of the list (`prev` when the list is empty). -/
def lastTimeFrom (prev : Nat) : List (Nat × String) → Nat
  | [] => prev
  | e :: rest => lastTimeFrom e.1 rest

/-- Content of the last edit of the list (`c` when the list is empty). -/
def lastContentFrom (c : String) : List (Nat × String) → String
  | [] => c
  | e :: rest => lastContentFrom e.2 rest

/-- Sequential application of the content mutations of a burst of edit calls
to a notes list. -/
def applyContents (id : String) : List (Nat × String) → List Note → List Note
  | [], ns => ns
  | e :: rest, ns => applyContents id rest (updateNoteContent id e.2 ns).1

/-- The invariant of the debounced-writer subsystem: the `isSaving` flag is
set exactly while a POST issued by the debounce expiry handler is awaiting
its response, and at most one such POST is outstanding. -/
def WriterInv (s : AppState) : Prop :=
  (s.isSaving = true ↔ s.inFlight ≠ 0) ∧ s.inFlight ≤ 1

/-- A concrete note used by the evaluation theorems below. -/
def noteA : Note :=
  { id := "a", content := "", x := 0, y := 0, width := 260, height := 200 }

/-- Start state of the concrete edit-burst evaluation. -/
def burstStart : AppState := { initialState with notes := [noteA] }

/-- Concrete state with a pending debounce countdown and a selected note. -/
def pendingState : AppState :=
  { initialState with
    notes := [noteA], selectedNoteId := some "a", saveDebounceTimer := some 700 }

/-- Concrete state with a write in flight. -/
def savingState : AppState :=
  { initialState with isSaving := true, inFlight := 1, lastSaveTime := 2000 }

/-- Concrete state in which `noteA` is being dragged. -/
def draggingState : AppState :=
  { initialState with notes := [noteA], draggedNote := some "a" }

/-! ## Properties of the repository mutations -/

theorem updateFirst_of_forall_not (p : Note → Prop) [DecidablePred p] (f : Note → Note) :
    ∀ ns : List Note, (∀ n ∈ ns, ¬ p n) → updateFirst p f ns = (ns, false) := by
  intro ns h
  induction ns with
  | nil => rfl
  | cons n ns ih =>
    have hn : ¬ p n := h n (List.mem_cons_self n ns)
    have hrec := ih fun m hm => h m (List.mem_cons_of_mem n hm)
    simp [updateFirst, hn, hrec]

theorem updateFirst_splits (p : Note → Prop) [DecidablePred p] :
    ∀ ns : List Note, (∃ n ∈ ns, p n) →
      ∃ pre m post,
        ns = pre ++ m :: post ∧ (∀ q ∈ pre, ¬ p q) ∧ p m ∧
        ∀ f : Note → Note, updateFirst p f ns = (pre ++ f m :: post, true) := by
  intro ns h
  induction ns with
  | nil => simp at h
  | cons n ns ih =>
    by_cases hn : p n
    · exact ⟨[], n, ns, rfl, by simp, hn, fun f => by simp [updateFirst, hn]⟩
    · obtain ⟨m, hm, hpm⟩ := h
      rcases List.mem_cons.mp hm with rfl | hm'
      · exact absurd hpm hn
      · obtain ⟨pre, m', post, hsplit, hpre, hpm', heq⟩ := ih ⟨m, hm', hpm⟩
        refine ⟨n :: pre, m', post, by simp [hsplit], ?_, hpm', fun f => ?_⟩
        · intro q hq
          rcases List.mem_cons.mp hq with rfl | hq'
          · exact hn
          · exact hpre q hq'
        · simp [updateFirst, hn, heq f]

theorem updateFirst_found (p : Note → Prop) [DecidablePred p] (f : Note → Note) :
    ∀ ns : List Note, (∃ n ∈ ns, p n) → (updateFirst p f ns).2 = true := by
  intro ns h
  obtain ⟨pre, m, post, _, _, _, heq⟩ := updateFirst_splits p ns h
  simp [heq f]

theorem updateFirst_map_id (p : Note → Prop) [DecidablePred p] (f : Note → Note)
    (hf : ∀ n, (f n).id = n.id) :
    ∀ ns : List Note, (updateFirst p f ns).1.map Note.id = ns.map Note.id := by
  intro ns
  induction ns with
  | nil => rfl
  | cons n ns ih =>
    by_cases hn : p n
    · simp [updateFirst, hn, hf n]
    · simp [updateFirst, hn, ih]

/-- C10: a content, position or size update is a no-op (and schedules no
write) when no note carries the target id; when one does, precisely the
targeted fields of the first such note change, while its identity, its other
fields, every other note, and the order of the list are untouched. -/
theorem update_frame_conditions (id c : String) (px py w h : Int) (ns : List Note) :
    ((∀ n ∈ ns, ¬ n.id = id) →
        updateNoteContent id c ns = (ns, false) ∧
        updateNotePosition id px py ns = (ns, false) ∧
        updateNoteSize id w h ns = (ns, false)) ∧
    ((∃ n ∈ ns, n.id = id) →
        ∃ pre m post,
          ns = pre ++ m :: post ∧ (∀ q ∈ pre, ¬ q.id = id) ∧ m.id = id ∧
          updateNoteContent id c ns = (pre ++ { m with content := c } :: post, true) ∧
          updateNotePosition id px py ns = (pre ++ { m with x := px, y := py } :: post, true) ∧
          updateNoteSize id w h ns = (pre ++ { m with width := w, height := h } :: post, true)) := by
  constructor
  · intro hnone
    exact ⟨updateFirst_of_forall_not _ _ ns hnone,
      updateFirst_of_forall_not _ _ ns hnone,
      updateFirst_of_forall_not _ _ ns hnone⟩
  · intro hsome
    obtain ⟨pre, m, post, hsplit, hpre, hm, heq⟩ :=
      updateFirst_splits (fun n => n.id = id) ns hsome
    exact ⟨pre, m, post, hsplit, hpre, hm, heq _, heq _, heq _⟩

/-- C10 evaluation: both branches of `update_frame_conditions` at concrete
inputs. -/
theorem update_frame_conditions_witness :
    (updateNoteContent "zz" "hi" [noteA] = ([noteA], false) ∧
      updateNotePosition "zz" 3 4 [noteA] = ([noteA], false) ∧
      updateNoteSize "zz" 5 6 [noteA] = ([noteA], false)) ∧
    (∃ pre m post,
      [noteA] = pre ++ m :: post ∧ (∀ q ∈ pre, ¬ q.id = "a") ∧ m.id = "a" ∧
      updateNoteContent "a" "hi" [noteA] = (pre ++ { m with content := "hi" } :: post, true) ∧
      updateNotePosition "a" 3 4 [noteA] = (pre ++ { m with x := 3, y := 4 } :: post, true) ∧
      updateNoteSize "a" 5 6 [noteA] = (pre ++ { m with width := 5, height := 6 } :: post, true)) :=
  ⟨(update_frame_conditions "zz" "hi" 3 4 5 6 [noteA]).1 (by decide),
   (update_frame_conditions "a" "hi" 3 4 5 6 [noteA]).2 (by decide)⟩

/-! ## Reconciliation -/

/-- C4: an incoming snapshot identical to the current Board State is
discarded with no replace and no redraw; a differing snapshot fully replaces
Board State; and a second reconciliation against the same snapshot performs
zero additional replace/redraw work. -/
theorem reconcile_idempotent :
    (∀ ns : List Note, reconcile ns ns = (ns, false)) ∧
    (∀ localNotes snapshot : List Note, localNotes ≠ snapshot →
        reconcile localNotes snapshot = (snapshot, true)) ∧
    (∀ localNotes snapshot : List Note,
        reconcile (reconcile localNotes snapshot).1 snapshot
          = ((reconcile localNotes snapshot).1, false)) := by
  refine ⟨fun ns => by simp [reconcile],
    fun a b hab => by simp [reconcile, hab],
    fun a b => ?_⟩
  by_cases hab : a = b
  · subst hab; simp [reconcile]
  · simp [reconcile, hab]

/-- C4 evaluation: a differing snapshot replaces the board. -/
theorem reconcile_idempotent_witness : reconcile [noteA] [] = ([], true) :=
  reconcile_idempotent.2.1 [noteA] [] (by decide)

/-! ## Poll-tick guards -/

theorem load_skip (b : Bool) (now : Nat) (o : FetchOutcome) (s : AppState)
    (h : s.isSaving = true ∨ s.draggedNote.isSome = true ∨
        now - s.lastSaveTime < MIN_SAVE_INTERVAL) :
    loadNotesFromAPI b now o s =
      (s, { fetchIssued := false, indicatorShown := false, rendered := false }) := by
  unfold loadNotesFromAPI
  by_cases h1 : now - s.lastSaveTime < MIN_SAVE_INTERVAL
  · simp [h1]
  · have h2 : (s.isSaving || s.draggedNote.isSome) = true := by
      rcases h with h | h | h
      · simp [h]
      · simp [h]
      · exact absurd h h1
    simp [h1, h2]

/-- C3: a poll tick taken while a write is in flight, or while a note is being
dragged, or within `MIN_SAVE_INTERVAL` of the last successful local write,
issues no fetch at all and leaves the whole state (Board State included)
unchanged. -/
theorem poll_suppression (now : Nat) (o : FetchOutcome) (s : AppState)
    (h : s.isSaving = true ∨ s.draggedNote.isSome = true ∨
        now - s.lastSaveTime < MIN_SAVE_INTERVAL) :
    pollTick now o s =
      (s, { fetchIssued := false, indicatorShown := false, rendered := false }) :=
  load_skip false now o s h

/-- C3 evaluation: a tick during an in-flight write is skipped. -/
theorem poll_suppression_witness :
    pollTick 5000 FetchOutcome.failure savingState =
      (savingState,
        { fetchIssued := false, indicatorShown := false, rendered := false }) :=
  poll_suppression 5000 FetchOutcome.failure savingState (Or.inl rfl)

/-- C5: a failed fetch (transport or decode error) and a body whose `notes`
field is missing or not a sequence all leave the state — Board State, timers,
sync flags — entirely unchanged and trigger no redraw; the error is absorbed
inside `loadNotesFromAPI` (the embedding is a total function returning the
untouched state), and nothing beyond the next natural poll tick is
scheduled. -/
theorem load_failure_preserves_state (b : Bool) (now : Nat) (s : AppState) :
    (loadNotesFromAPI b now FetchOutcome.failure s).1 = s ∧
    (loadNotesFromAPI b now FetchOutcome.failure s).2.rendered = false ∧
    (loadNotesFromAPI b now (FetchOutcome.success ⟨NotesField.missing⟩) s).1 = s ∧
    (loadNotesFromAPI b now (FetchOutcome.success ⟨NotesField.missing⟩) s).2.rendered = false ∧
    (loadNotesFromAPI b now (FetchOutcome.success ⟨NotesField.notSequence⟩) s).1 = s ∧
    (loadNotesFromAPI b now (FetchOutcome.success ⟨NotesField.notSequence⟩) s).2.rendered
      = false := by
  by_cases h1 : now - s.lastSaveTime < MIN_SAVE_INTERVAL
  · simp [loadNotesFromAPI, h1]
  · by_cases h2 : (s.isSaving || s.draggedNote.isSome) = true
    · simp [loadNotesFromAPI, h1, h2]
    · simp [loadNotesFromAPI, h1, h2]

/-- C6: while a note is flagged as being dragged, a poll tick (whatever the
remote snapshot would have been) leaves the state unchanged; in particular the
dragged note keeps its position fields. -/
theorem no_self_clobber_during_drag (now : Nat) (o : FetchOutcome) (s : AppState)
    (nid : String) (h : s.draggedNote = some nid) :
    (pollTick now o s).1 = s ∧
    ∀ n ∈ s.notes, n.id = nid →
      ∃ m ∈ (pollTick now o s).1.notes, m.id = n.id ∧ m.x = n.x ∧ m.y = n.y := by
  have hskip := load_skip false now o s (Or.inr (Or.inl (by simp [h])))
  have h1 : (pollTick now o s).1 = s := by
    show (loadNotesFromAPI false now o s).1 = s
    rw [hskip]
  refine ⟨h1, fun n hn _ => ⟨n, ?_, rfl, rfl, rfl⟩⟩
  rw [h1]
  exact hn

/-- C6 evaluation: a tick during a drag of `noteA` keeps its position. -/
theorem no_self_clobber_during_drag_witness :
    (pollTick 5000 FetchOutcome.failure draggingState).1 = draggingState ∧
    ∃ m ∈ (pollTick 5000 FetchOutcome.failure draggingState).1.notes,
      m.id = noteA.id ∧ m.x = noteA.x ∧ m.y = noteA.y :=
  ⟨(no_self_clobber_during_drag 5000 FetchOutcome.failure draggingState "a" rfl).1,
   (no_self_clobber_during_drag 5000 FetchOutcome.failure draggingState "a" rfl).2
     noteA (by decide) rfl⟩

/-! ## Debounce coalescing of content-edit bursts -/

theorem timer_update_self (s : AppState) (v : Option Nat)
    (h : s.saveDebounceTimer = v) : { s with saveDebounceTimer := v } = s := by
  cases s
  cases h
  rfl

theorem fireTimerIfDue_of_none (t : Nat) (s : AppState)
    (h : s.saveDebounceTimer = none) : fireTimerIfDue t s = s := by
  unfold fireTimerIfDue
  rw [h]

theorem fireTimerIfDue_of_notDue (t d : Nat) (s : AppState)
    (h : s.saveDebounceTimer = some d) (hlt : t < d) : fireTimerIfDue t s = s := by
  unfold fireTimerIfDue
  rw [h]
  show (if d ≤ t then debounceExpire s else s) = s
  rw [if_neg (by omega : ¬ d ≤ t)]

theorem fireTimerIfDue_of_due (t d : Nat) (s : AppState)
    (h : s.saveDebounceTimer = some d) (hle : d ≤ t) :
    fireTimerIfDue t s = debounceExpire s := by
  unfold fireTimerIfDue
  rw [h]
  show (if d ≤ t then debounceExpire s else s) = debounceExpire s
  rw [if_pos hle]

theorem updateNoteContent_mem (id c : String) (ns : List Note)
    (h : ∃ n ∈ ns, n.id = id) :
    ∃ n ∈ (updateNoteContent id c ns).1, n.id = id ∧ n.content = c := by
  obtain ⟨pre, m, post, _, _, hm, heq⟩ :=
    updateFirst_splits (fun n => n.id = id) ns h
  rw [show updateNoteContent id c ns
      = updateFirst (fun n => n.id = id) (fun n => { n with content := c }) ns from rfl,
    heq]
  exact ⟨{ m with content := c }, by simp, hm, rfl⟩

theorem updateNoteContent_overwrite (id c1 c2 : String) (ns : List Note) :
    (updateNoteContent id c2 (updateNoteContent id c1 ns).1).1
      = (updateNoteContent id c2 ns).1 := by
  induction ns with
  | nil => rfl
  | cons n ns ih =>
    by_cases hn : n.id = id
    · simp [updateNoteContent, updateFirst, hn]
    · simp [updateNoteContent, updateFirst, hn] at ih ⊢
      exact ih

theorem updateNoteContentS_found (id c : String) (t : Nat) (s : AppState)
    (h : ∃ n ∈ s.notes, n.id = id) :
    updateNoteContentS id c t s =
      { s with
        notes := (updateNoteContent id c s.notes).1
        saveDebounceTimer := some (t + DEBOUNCE_DELAY) } := by
  have hf : (updateNoteContent id c s.notes).2 = true :=
    updateFirst_found _ _ s.notes h
  unfold updateNoteContentS scheduleWrite
  rw [if_pos hf]

theorem runEdits_loop (id : String) :
    ∀ (edits : List (Nat × String)) (prev : Nat) (s : AppState),
      gapsFromB prev edits = true →
      s.saveDebounceTimer = some (prev + DEBOUNCE_DELAY) →
      (∃ n ∈ s.notes, n.id = id) →
      runEdits id edits s =
        { s with
          notes := applyContents id edits s.notes
          saveDebounceTimer := some (lastTimeFrom prev edits + DEBOUNCE_DELAY) } := by
  intro edits
  induction edits with
  | nil =>
    intro prev s _ htimer _
    show s = { s with saveDebounceTimer := some (prev + DEBOUNCE_DELAY) }
    exact (timer_update_self s _ htimer).symm
  | cons e rest ih =>
    intro prev s hgap htimer hmem
    have hg : (prev < e.1 ∧ e.1 < prev + DEBOUNCE_DELAY) ∧ gapsFromB e.1 rest = true := by
      simpa [gapsFromB, Bool.and_eq_true, decide_eq_true_eq] using hgap
    have hfire : fireTimerIfDue e.1 s = s :=
      fireTimerIfDue_of_notDue e.1 (prev + DEBOUNCE_DELAY) s htimer hg.1.2
    have hstep : contentEditStep id e s =
        { s with
          notes := (updateNoteContent id e.2 s.notes).1
          saveDebounceTimer := some (e.1 + DEBOUNCE_DELAY) } := by
      show updateNoteContentS id e.2 e.1 (fireTimerIfDue e.1 s) = _
      rw [hfire]
      exact updateNoteContentS_found id e.2 e.1 s hmem
    have hmem1 : ∃ n ∈ (updateNoteContent id e.2 s.notes).1, n.id = id := by
      obtain ⟨m, h1, h2, _⟩ := updateNoteContent_mem id e.2 s.notes hmem
      exact ⟨m, h1, h2⟩
    show runEdits id rest (contentEditStep id e s) = _
    rw [hstep, ih e.1 _ hg.2 rfl hmem1]
    simp [applyContents, lastTimeFrom]

theorem applyContents_collapse (id : String) :
    ∀ (rest : List (Nat × String)) (c : String) (ns : List Note),
      applyContents id rest (updateNoteContent id c ns).1
        = (updateNoteContent id (lastContentFrom c rest) ns).1 := by
  intro rest
  induction rest with
  | nil => intro c ns; rfl
  | cons e rest ih =>
    intro c ns
    show applyContents id rest (updateNoteContent id e.2 (updateNoteContent id c ns).1).1
        = _
    rw [updateNoteContent_overwrite id c e.2 ns, ih e.2 ns]
    rfl

/-- C1: for a burst of one or more content edits in which every edit arrives
strictly less than `DEBOUNCE_DELAY` after the previous one, each edit cancels
and restarts the countdown, no write is issued during the burst, and when the
last edit's countdown expires exactly one POST is issued, whose body is the
board carrying the content of the last edit. -/
theorem debounce_coalescing (id c : String) (t : Nat) (rest : List (Nat × String))
    (s : AppState)
    (hgap : gapsFromB t rest = true)
    (hmem : ∃ n ∈ s.notes, n.id = id)
    (htimer : s.saveDebounceTimer = none)
    (hsaving : s.isSaving = false) :
    (runEdits id ((t, c) :: rest) s).writes = s.writes ∧
    (runEdits id ((t, c) :: rest) s).saveDebounceTimer
      = some (lastTimeFrom t rest + DEBOUNCE_DELAY) ∧
    (fireTimerIfDue (lastTimeFrom t rest + DEBOUNCE_DELAY)
        (runEdits id ((t, c) :: rest) s)).writes
      = s.writes ++ [(updateNoteContent id (lastContentFrom c rest) s.notes).1] ∧
    ∃ n ∈ (updateNoteContent id (lastContentFrom c rest) s.notes).1,
      n.id = id ∧ n.content = lastContentFrom c rest := by
  have hfire0 : fireTimerIfDue t s = s := fireTimerIfDue_of_none t s htimer
  have hstep : contentEditStep id (t, c) s =
      { s with
        notes := (updateNoteContent id c s.notes).1
        saveDebounceTimer := some (t + DEBOUNCE_DELAY) } := by
    show updateNoteContentS id c t (fireTimerIfDue t s) = _
    rw [hfire0]
    exact updateNoteContentS_found id c t s hmem
  have hmem1 : ∃ n ∈ (updateNoteContent id c s.notes).1, n.id = id := by
    obtain ⟨m, h1, h2, _⟩ := updateNoteContent_mem id c s.notes hmem
    exact ⟨m, h1, h2⟩
  have hrun : runEdits id ((t, c) :: rest) s =
      { s with
        notes := (updateNoteContent id (lastContentFrom c rest) s.notes).1
        saveDebounceTimer := some (lastTimeFrom t rest + DEBOUNCE_DELAY) } := by
    show runEdits id rest (contentEditStep id (t, c) s) = _
    rw [hstep, runEdits_loop id rest t _ hgap rfl hmem1]
    show ({ s with
        notes := applyContents id rest (updateNoteContent id c s.notes).1
        saveDebounceTimer := some (lastTimeFrom t rest + DEBOUNCE_DELAY) } : AppState) = _
    rw [applyContents_collapse id rest c s.notes]
  refine ⟨?_, ?_, ?_, updateNoteContent_mem id (lastContentFrom c rest) s.notes hmem⟩
  · rw [hrun]
  · rw [hrun]
  · rw [hrun,
      fireTimerIfDue_of_due (lastTimeFrom t rest + DEBOUNCE_DELAY)
        (lastTimeFrom t rest + DEBOUNCE_DELAY) _ rfl (Nat.le_refl _)]
    show (debounceExpire { s with
        notes := (updateNoteContent id (lastContentFrom c rest) s.notes).1
        saveDebounceTimer := some (lastTimeFrom t rest + DEBOUNCE_DELAY) }).writes = _
    unfold debounceExpire
    rw [if_neg (by simp [hsaving])]

/-- C1 evaluation: two rapid edits (`"h"` at 1000 ms, `"hi"` at 1200 ms)
issue exactly one write, carrying `"hi"`. -/
theorem debounce_coalescing_witness :
    (runEdits "a" [(1000, "h"), (1200, "hi")] burstStart).writes
      = burstStart.writes ∧
    (runEdits "a" [(1000, "h"), (1200, "hi")] burstStart).saveDebounceTimer
      = some (lastTimeFrom 1000 [(1200, "hi")] + DEBOUNCE_DELAY) ∧
    (fireTimerIfDue (lastTimeFrom 1000 [(1200, "hi")] + DEBOUNCE_DELAY)
        (runEdits "a" [(1000, "h"), (1200, "hi")] burstStart)).writes
      = burstStart.writes
          ++ [(updateNoteContent "a" (lastContentFrom "h" [(1200, "hi")])
                burstStart.notes).1] ∧
    ∃ n ∈ (updateNoteContent "a" (lastContentFrom "h" [(1200, "hi")])
        burstStart.notes).1,
      n.id = "a" ∧ n.content = lastContentFrom "h" [(1200, "hi")] :=
  debounce_coalescing "a" "h" 1000 [(1200, "hi")] burstStart (by decide)
    (by decide) rfl rfl

/-! ## Structural mutations bypass the debounce -/

/-- C2: with a debounce countdown pending from a prior content edit, a create
appends the note, cancels the countdown and issues its POST (carrying the
post-mutation board) at call time; a delete of the selected note filters the
note out, cancels the countdown and issues its POST at call time; in both
cases the cancelled countdown can never fire afterwards, so the superseded
debounced write is not also issued. -/
theorem structural_bypass (s : AppState) (d now : Nat) (rand : List Nat)
    (px py : Int) (sid : String) :
    (s.saveDebounceTimer = some d →
        (createNewNote now rand px py s).saveDebounceTimer = none ∧
        (createNewNote now rand px py s).writes
          = s.writes ++ [s.notes ++ [mkNewNote (generateId now rand) px py]] ∧
        ∀ u : Nat, fireTimerIfDue u (createNewNote now rand px py s)
          = createNewNote now rand px py s) ∧
    (s.saveDebounceTimer = some d → s.selectedNoteId = some sid →
        (deleteSelectedNote s).saveDebounceTimer = none ∧
        (deleteSelectedNote s).writes
          = s.writes ++ [s.notes.filter (fun n => n.id != sid)] ∧
        ∀ u : Nat, fireTimerIfDue u (deleteSelectedNote s) = deleteSelectedNote s) := by
  constructor
  · intro _
    refine ⟨rfl, rfl, fun u => ?_⟩
    simp [fireTimerIfDue, createNewNote]
  · intro _ hsel
    refine ⟨?_, ?_, fun u => ?_⟩
    · simp [deleteSelectedNote, hsel]
    · simp [deleteSelectedNote, hsel]
    · simp [fireTimerIfDue, deleteSelectedNote, hsel]

/-- C2 evaluation at a state with a countdown pending and `noteA` selected. -/
theorem structural_bypass_witness :
    (createNewNote 100 [5] 10 20 pendingState).saveDebounceTimer = none ∧
    (createNewNote 100 [5] 10 20 pendingState).writes
      = pendingState.writes
          ++ [pendingState.notes ++ [mkNewNote (generateId 100 [5]) 10 20]] ∧
    fireTimerIfDue 5000 (createNewNote 100 [5] 10 20 pendingState)
      = createNewNote 100 [5] 10 20 pendingState ∧
    (deleteSelectedNote pendingState).saveDebounceTimer = none ∧
    (deleteSelectedNote pendingState).writes
      = pendingState.writes ++ [pendingState.notes.filter (fun n => n.id != "a")] ∧
    fireTimerIfDue 5000 (deleteSelectedNote pendingState)
      = deleteSelectedNote pendingState := by
  obtain ⟨h1, h2, h3⟩ :=
    (structural_bypass pendingState 700 100 [5] 10 20 "a").1 rfl
  obtain ⟨h4, h5, h6⟩ :=
    (structural_bypass pendingState 700 100 [5] 10 20 "a").2 rfl rfl
  exact ⟨h1, h2, h3 5000, h4, h5, h6 5000⟩

/-! ## At most one debounced write in flight -/

theorem updateNoteContentS_flags (id content : String) (t : Nat) (s : AppState) :
    (updateNoteContentS id content t s).isSaving = s.isSaving ∧
    (updateNoteContentS id content t s).inFlight = s.inFlight ∧
    (updateNoteContentS id content t s).writes = s.writes := by
  unfold updateNoteContentS scheduleWrite
  by_cases hc : (updateNoteContent id content s.notes).2 = true
  · simp [hc]
  · simp [hc]

/-- C7: a debounce expiry that fires while a write is in flight drops the
pending write completely — the countdown is consumed, nothing is queued or
retried, no POST is issued and the in-flight count does not grow — and over
any run of the debounced-writer subsystem the number of its in-flight writes
never exceeds one. -/
theorem at_most_one_write_in_flight :
    (∀ s : AppState, s.isSaving = true →
        debounceExpire s = { s with saveDebounceTimer := none }) ∧
    (∀ (evs : List DebounceEvent) (s : AppState),
        WriterInv s → WriterInv (runDebounce evs s)) := by
  constructor
  · intro s h
    simp [debounceExpire, h]
  · intro evs
    induction evs with
    | nil => exact fun s h => h
    | cons e evs ih =>
      intro s h
      refine ih (debounceStep s e) ?_
      obtain ⟨hiff, hle⟩ := h
      cases e with
      | edit id content t =>
        show WriterInv (updateNoteContentS id content t s)
        obtain ⟨e1, e2, _⟩ := updateNoteContentS_flags id content t s
        unfold WriterInv
        rw [e1, e2]
        exact ⟨hiff, hle⟩
      | expire =>
        show WriterInv (debounceExpire s)
        unfold WriterInv debounceExpire
        by_cases hs : s.isSaving = true
        · rw [if_pos hs]
          exact ⟨hiff, hle⟩
        · rw [if_neg hs]
          refine ⟨?_, ?_⟩
          · show true = true ↔ s.inFlight + 1 ≠ 0
            simp
          · show s.inFlight + 1 ≤ 1
            have h0 : s.inFlight = 0 := by
              by_contra hne
              exact hs (hiff.mpr hne)
            omega
      | complete ok t =>
        show WriterInv (writeComplete ok t s)
        unfold WriterInv
        refine ⟨?_, ?_⟩
        · show false = true ↔ s.inFlight - 1 ≠ 0
          have h0 : s.inFlight - 1 = 0 := by omega
          simp [h0]
        · show s.inFlight - 1 ≤ 1
          omega

/-- C7 evaluation: dropping an expiry during an in-flight write, and the
invariant along a concrete run. -/
theorem at_most_one_write_in_flight_witness :
    debounceExpire savingState = { savingState with saveDebounceTimer := none } ∧
    WriterInv (runDebounce
      [DebounceEvent.expire, DebounceEvent.complete true 2000, DebounceEvent.expire]
      savingState) :=
  ⟨at_most_one_write_in_flight.1 savingState rfl,
   at_most_one_write_in_flight.2 _ savingState
     (by unfold WriterInv; exact ⟨by decide, by decide⟩)⟩

/-! ## Id generation and uniqueness -/

theorem base36Char_key : ∀ a ∈ List.range 36, ∀ b ∈ List.range 36,
    base36Char a = base36Char b → a = b := by decide

theorem base36Char_inj {a b : Nat} (ha : a < 36) (hb : b < 36)
    (h : base36Char a = base36Char b) : a = b :=
  base36Char_key a (List.mem_range.mpr ha) b (List.mem_range.mpr hb) h

theorem map_base36Char_inj : ∀ as bs : List Nat, (∀ d ∈ as, d < 36) →
    (∀ d ∈ bs, d < 36) → as.map base36Char = bs.map base36Char → as = bs := by
  intro as
  induction as with
  | nil =>
    intro bs _ _ h
    cases bs with
    | nil => rfl
    | cons b bs => simp at h
  | cons a as ih =>
    intro bs ha hb h
    cases bs with
    | nil => simp at h
    | cons b bs =>
      simp only [List.map_cons, List.cons.injEq] at h
      have h1 : a = b := base36Char_inj (ha a (by simp)) (hb b (by simp)) h.1
      have h2 : as = bs :=
        ih bs (fun d hd => ha d (by simp [hd])) (fun d hd => hb d (by simp [hd])) h.2
      rw [h1, h2]

theorem digits36_len (t : Nat) (h1 : 36 ^ 7 ≤ t) (h2 : t < 36 ^ 8) :
    (Nat.digits 36 t).length = 8 := by
  have ht0 : t ≠ 0 := by
    have : (0 : Nat) < 36 ^ 7 := by norm_num
    omega
  rw [Nat.digits_len 36 t (by norm_num) ht0]
  have hlog : Nat.log 36 t = 7 := Nat.log_eq_of_pow_le_of_lt_pow h1 h2
  omega

theorem generateId_inj (t1 t2 : Nat) (r1 r2 : List Nat)
    (h1a : 36 ^ 7 ≤ t1) (h1b : t1 < 36 ^ 8) (h2a : 36 ^ 7 ≤ t2) (h2b : t2 < 36 ^ 8)
    (hne : t1 ≠ t2) : generateId t1 r1 ≠ generateId t2 r2 := by
  intro heq
  unfold generateId base36String at heq
  injection heq with hdata
  rw [List.map_append, List.map_append] at hdata
  have hlen : ((Nat.digits 36 t1).reverse.map base36Char).length
      = ((Nat.digits 36 t2).reverse.map base36Char).length := by
    simp [digits36_len t1 h1a h1b, digits36_len t2 h2a h2b]
  have hpre := (List.append_inj hdata hlen).1
  have hrev : (Nat.digits 36 t1).reverse = (Nat.digits 36 t2).reverse := by
    refine map_base36Char_inj _ _ ?_ ?_ hpre
    · intro d hd
      exact Nat.digits_lt_base (by norm_num) (List.mem_reverse.mp hd)
    · intro d hd
      exact Nat.digits_lt_base (by norm_num) (List.mem_reverse.mp hd)
  exact hne (Nat.digits_inj_iff.mp (List.reverse_injective hrev))

theorem updateNoteContent_map_id (id c : String) (ns : List Note) :
    (updateNoteContent id c ns).1.map Note.id = ns.map Note.id :=
  updateFirst_map_id (fun n => n.id = id) (fun n => { n with content := c })
    (fun _ => rfl) ns

theorem updateNotePosition_map_id (id : String) (px py : Int) (ns : List Note) :
    (updateNotePosition id px py ns).1.map Note.id = ns.map Note.id :=
  updateFirst_map_id (fun n => n.id = id) (fun n => { n with x := px, y := py })
    (fun _ => rfl) ns

theorem updateNoteSize_map_id (id : String) (w h : Int) (ns : List Note) :
    (updateNoteSize id w h ns).1.map Note.id = ns.map Note.id :=
  updateFirst_map_id (fun n => n.id = id) (fun n => { n with width := w, height := h })
    (fun _ => rfl) ns

theorem deleteSelectedNote_of_none (s : AppState) (h : s.selectedNoteId = none) :
    deleteSelectedNote s = s := by
  unfold deleteSelectedNote
  rw [h]

theorem deleteSelectedNote_of_some (s : AppState) (sid : String)
    (h : s.selectedNoteId = some sid) :
    deleteSelectedNote s =
      { s with
        notes := s.notes.filter (fun n => n.id != sid)
        selectedNoteId := none
        saveDebounceTimer := none
        isSaving := true
        inFlight := s.inFlight + 1
        writes := s.writes ++ [s.notes.filter (fun n => n.id != sid)] } := by
  unfold deleteSelectedNote
  rw [h]

/-- C9 counterexample: two creates in the same millisecond whose random draws
coincide produce two notes with the same id — `generateId` gives no
distinctness guarantee, and `createNewNote` appends without any uniqueness
check, so Board State ends with a duplicate id. -/
theorem create_id_collision :
    ¬ ((createNewNote 100 [5] 70 80
          (createNewNote 100 [5] 50 60 initialState)).notes.map Note.id).Nodup := by
  intro h
  simp [createNewNote, initialState, mkNewNote, List.nodup_cons] at h

/-- C9 amended: ids of creates at pairwise distinct millisecond timestamps
(within the 8-digit base-36 era of `Date.now()`, 1994–2085) are pairwise
distinct, since the timestamp prefix of the id then has fixed length 8 and
base-36 rendering is injective; same-millisecond creates with equal random
suffixes may collide.  Content, position and size updates and deletes
preserve uniqueness of the ids in Board State; a create preserves it exactly
when the generated id differs from every existing one. -/
theorem id_uniqueness_amended :
    (∀ (t1 t2 : Nat) (r1 r2 : List Nat),
        36 ^ 7 ≤ t1 → t1 < 36 ^ 8 → 36 ^ 7 ≤ t2 → t2 < 36 ^ 8 → t1 ≠ t2 →
        generateId t1 r1 ≠ generateId t2 r2) ∧
    (∀ (id c : String) (ns : List Note),
        (ns.map Note.id).Nodup → ((updateNoteContent id c ns).1.map Note.id).Nodup) ∧
    (∀ (id : String) (px py : Int) (ns : List Note),
        (ns.map Note.id).Nodup →
          ((updateNotePosition id px py ns).1.map Note.id).Nodup) ∧
    (∀ (id : String) (w h : Int) (ns : List Note),
        (ns.map Note.id).Nodup → ((updateNoteSize id w h ns).1.map Note.id).Nodup) ∧
    (∀ s : AppState, (s.notes.map Note.id).Nodup →
        ((deleteSelectedNote s).notes.map Note.id).Nodup) ∧
    (∀ (t : Nat) (rand : List Nat) (nx ny : Int) (s : AppState),
        (s.notes.map Note.id).Nodup → generateId t rand ∉ s.notes.map Note.id →
        ((createNewNote t rand nx ny s).notes.map Note.id).Nodup) := by
  refine ⟨fun t1 t2 r1 r2 a b c d e => generateId_inj t1 t2 r1 r2 a b c d e,
    ?_, ?_, ?_, ?_, ?_⟩
  · intro id c ns h
    rwa [updateNoteContent_map_id]
  · intro id px py ns h
    rwa [updateNotePosition_map_id]
  · intro id w h ns hh
    rwa [updateNoteSize_map_id]
  · intro s h
    rcases hsel : s.selectedNoteId with _ | sid
    · rw [deleteSelectedNote_of_none s hsel]
      exact h
    · rw [deleteSelectedNote_of_some s sid hsel]
      exact List.Nodup.sublist
        (List.Sublist.map Note.id (List.filter_sublist s.notes)) h
  · intro t rand nx ny s h hnotin
    show ((s.notes ++ [mkNewNote (generateId t rand) nx ny]).map Note.id).Nodup
    rw [List.map_append, List.nodup_append]
    refine ⟨h, by simp, ?_⟩
    intro a ha hb
    have hae : a = generateId t rand := by simpa [mkNewNote] using hb
    rw [hae] at ha
    exact hnotin ha

/-- C9 amended, evaluation on concrete inputs. -/
theorem id_uniqueness_amended_witness :
    generateId (36 ^ 7) [] ≠ generateId (36 ^ 7 + 1) [] ∧
    ((updateNoteContent "a" "hi" [noteA]).1.map Note.id).Nodup ∧
    ((updateNotePosition "a" 3 4 [noteA]).1.map Note.id).Nodup ∧
    ((updateNoteSize "a" 5 6 [noteA]).1.map Note.id).Nodup ∧
    ((deleteSelectedNote pendingState).notes.map Note.id).Nodup ∧
    ((createNewNote 100 [5] 10 20 initialState).notes.map Note.id).Nodup :=
  ⟨id_uniqueness_amended.1 (36 ^ 7) (36 ^ 7 + 1) [] [] (by decide) (by decide)
      (by decide) (by decide) (by decide),
   id_uniqueness_amended.2.1 "a" "hi" [noteA] (by decide),
   id_uniqueness_amended.2.2.1 "a" 3 4 [noteA] (by decide),
   id_uniqueness_amended.2.2.2.1 "a" 5 6 [noteA] (by decide),
   id_uniqueness_amended.2.2.2.2.1 pendingState (by decide),
   id_uniqueness_amended.2.2.2.2.2 100 [5] 10 20 initialState (by decide) (by decide)⟩

/-! ## The initial load -/

/-- C8 counterexample: the initial `loadNotesFromAPI(true)` call runs through
the very same guard checks as every later poll; at application start
(`lastSaveTime = 0`) with the clock at 1000 ms the grace-window guard fires,
so no fetch is issued and no loading indicator is shown — the initial load is
not unconditional and not exempt from the suppression rules. -/
theorem initial_load_not_unconditional :
    (initialLoad 1000 (FetchOutcome.success ⟨NotesField.array []⟩)).2.fetchIssued
      = false ∧
    (initialLoad 1000 (FetchOutcome.success ⟨NotesField.array []⟩)).2.indicatorShown
      = false := by
  constructor <;> rfl

/-- C8 amended: the initial load passes through the same suppression guards as
every poll; since the start-up state has `isSaving = false`, no drag and
`lastSaveTime = 0`, the first fetch is issued — with the loading indicator
shown — whenever the clock reads at least `MIN_SAVE_INTERVAL`. -/
theorem initial_load_amended (now : Nat) (o : FetchOutcome)
    (h : MIN_SAVE_INTERVAL ≤ now) :
    (initialLoad now o).2.fetchIssued = true ∧
    (initialLoad now o).2.indicatorShown = true := by
  unfold initialLoad loadNotesFromAPI initialState
  have h1 : ¬ (now - 0 < MIN_SAVE_INTERVAL) := by omega
  simp only [h1, if_false]
  cases o with
  | failure => simp
  | success data =>
    cases data with
    | mk nf => cases nf <;> simp

/-- C8 amended, evaluation: with the clock at 5000 ms the first fetch is
issued and the indicator shown. -/
theorem initial_load_amended_witness :
    (initialLoad 5000 FetchOutcome.failure).2.fetchIssued = true ∧
    (initialLoad 5000 FetchOutcome.failure).2.indicatorShown = true :=
  initial_load_amended 5000 FetchOutcome.failure (by decide)

end NotesApp
